import Mathlib

/-!
Verification of the literalai instrumentation-and-delivery pipeline core:
context stack, scoped instrumentation surface, event processor and prompt
resolver. The repository ships only its end-to-end tests and an example;
the library itself is modelled from the specification (spec.md), and the
theorems below check the behavioural claims exercised by the tests.
-/

namespace LiteralAI

/-- Modelled from the spec: the enumeration of Step types (data model §3);
the implementation file observability/step.py is missing from the sources. -/
inductive StepType where
  | run
  | llm
  | tool
  | embedding
  | retrieval
  | user_message
  | assistant_message
  | system_message
  | other
deriving DecidableEq

/-- Modelled from the spec: a Step record (data model §3). Ids are modelled
as natural numbers drawn from a fresh-id counter (the implementation draws
uuid4 values; only freshness matters to the claims). -/
structure Step where
  id : Nat
  name : String
  type : StepType
  threadId : Option Nat
  parentId : Option Nat
  rootRunId : Option Nat
  startTime : Nat
  endTime : Option Nat
  output : Option String
  error : Option String
deriving DecidableEq

/-- Modelled from the spec: the per-logical-task instrumentation state — a
fresh-id source, a logical clock, the ambient Thread set by a thread scope,
the Context Stack of active steps (head is the top), and the Event
Processor queue of finalized steps (§4.1–§4.3). -/
structure TraceState where
  counter : Nat
  clock : Nat
  ambientThread : Option Nat
  stack : List Step
  queue : List Step
deriving DecidableEq

/-- Initial state with a given fresh-id counter: empty stack, empty queue,
no ambient thread. -/
def init (c : Nat) : TraceState :=
  { counter := c, clock := 0, ambientThread := none, stack := [], queue := [] }

/-- Modelled from the spec: creation of a Step with the Context Stack child
derivation rule (§4.1): parent is the stack top; thread is the parent's
thread, else the ambient thread, else a freshly created implicit Thread;
root_run_id is the parent's root_run_id if set, else its own id when its
own type is run, else none. -/
def newStep (nm : String) (ty : StepType) (s : TraceState) : Step × TraceState :=
  match s.stack.head? with
  | some p =>
      let rr : Option Nat :=
        match p.rootRunId with
        | some r => some r
        | none => if ty = StepType.run then some s.counter else none
      (⟨s.counter, nm, ty, p.threadId, some p.id, rr, s.clock, none, none, none⟩,
       { s with counter := s.counter + 1, clock := s.clock + 1 })
  | none =>
      let rr : Option Nat := if ty = StepType.run then some s.counter else none
      match s.ambientThread with
      | some t =>
          (⟨s.counter, nm, ty, some t, none, rr, s.clock, none, none, none⟩,
           { s with counter := s.counter + 1, clock := s.clock + 1 })
      | none =>
          (⟨s.counter, nm, ty, some (s.counter + 1), none, rr, s.clock, none, none, none⟩,
           { s with counter := s.counter + 2, clock := s.clock + 1,
                    ambientThread := some (s.counter + 1) })

/-- Modelled from the spec: a well-nested tree of step/run scopes (§4.2);
scope nm ty body next enters a scope of type ty named nm, runs body inside
it, exits the scope, then continues with next. -/
inductive Prog where
  | done
  | scope (nm : String) (ty : StepType) (body : Prog) (next : Prog)

/-- Modelled from the spec: scope exit (§4.2) — set end_time on the popped
top step, restore the rest of the stack and enqueue the finished Step. -/
def exitScope (top : Step) (rest : List Step) (s2 : TraceState) : TraceState :=
  { s2 with stack := rest, clock := s2.clock + 1,
            queue := s2.queue ++ [{ top with endTime := some s2.clock }] }

/-- Modelled from the spec: interpretation of a scope tree (§4.2). Entering
a scope constructs the Step from the Context Stack snapshot and pushes it;
exiting sets end_time, pops the stack and enqueues the finished Step. -/
def interp : Prog → TraceState → TraceState
  | Prog.done, s => s
  | Prog.scope nm ty body next, s =>
      let pr := newStep nm ty s
      let s2 := interp body { pr.2 with stack := pr.1 :: pr.2.stack }
      match s2.stack with
      | [] => interp next s2
      | top :: rest => interp next (exitScope top rest s2)

theorem newStep_stack (nm : String) (ty : StepType) (s : TraceState) :
    ((newStep nm ty s).2).stack = s.stack := by
  cases hp : s.stack.head? <;> cases ha : s.ambientThread <;> simp [newStep, hp, ha]

theorem newStep_queue (nm : String) (ty : StepType) (s : TraceState) :
    ((newStep nm ty s).2).queue = s.queue := by
  cases hp : s.stack.head? <;> cases ha : s.ambientThread <;> simp [newStep, hp, ha]

theorem newStep_rootRunId_of_parent (nm : String) (ty : StepType) (s : TraceState)
    (p : Step) (r : Nat) (hp : s.stack.head? = some p) (hr : p.rootRunId = some r) :
    ((newStep nm ty s).1).rootRunId = some r := by
  simp [newStep, hp, hr]

/-- Inner state after a scope entry pushes the freshly created step. -/
def pushState (nm : String) (ty : StepType) (s : TraceState) : TraceState :=
  { (newStep nm ty s).2 with stack := (newStep nm ty s).1 :: ((newStep nm ty s).2).stack }

theorem pushState_stack (nm : String) (ty : StepType) (s : TraceState) :
    (pushState nm ty s).stack = (newStep nm ty s).1 :: s.stack := by
  simp [pushState, newStep_stack]

theorem pushState_queue (nm : String) (ty : StepType) (s : TraceState) :
    (pushState nm ty s).queue = s.queue := by
  simp [pushState, newStep_queue]

theorem interp_stack (p : Prog) : ∀ s : TraceState, (interp p s).stack = s.stack := by
  induction p with
  | done => intro s; rfl
  | scope nm ty body next ihb ihn =>
      intro s
      have hb : (interp body (pushState nm ty s)).stack
          = (newStep nm ty s).1 :: ((newStep nm ty s).2).stack := by
        rw [ihb, pushState_stack, newStep_stack]
      simp only [interp]
      rw [show ({ (newStep nm ty s).2 with
        stack := (newStep nm ty s).1 :: ((newStep nm ty s).2).stack } : TraceState)
        = pushState nm ty s from rfl]
      rw [hb]
      rw [ihn]
      simp [exitScope, newStep_stack]

theorem interp_scope (nm : String) (ty : StepType) (body next : Prog) (s : TraceState) :
    interp (Prog.scope nm ty body next) s =
      interp next (exitScope (newStep nm ty s).1 (((newStep nm ty s).2).stack)
        (interp body (pushState nm ty s))) := by
  have h : (interp body (pushState nm ty s)).stack
      = (newStep nm ty s).1 :: ((newStep nm ty s).2).stack := by
    rw [interp_stack, pushState_stack, newStep_stack]
  simp only [interp]
  rw [show ({ (newStep nm ty s).2 with
    stack := (newStep nm ty s).1 :: ((newStep nm ty s).2).stack } : TraceState)
    = pushState nm ty s from rfl]
  rw [h]

theorem exitScope_stack (top : Step) (rest : List Step) (s2 : TraceState) :
    (exitScope top rest s2).stack = rest := rfl

theorem exitScope_queue (top : Step) (rest : List Step) (s2 : TraceState) :
    (exitScope top rest s2).queue
      = s2.queue ++ [{ top with endTime := some s2.clock }] := rfl

theorem interp_rootRun_inv (p : Prog) :
    ∀ (s : TraceState) (r : Nat), s.stack ≠ [] →
      (∀ q ∈ s.stack, q.rootRunId = some r) →
      ∀ q ∈ (interp p s).queue, q ∈ s.queue ∨ q.rootRunId = some r := by
  induction p with
  | done => intro s r _ _ q hq; exact Or.inl hq
  | scope nm ty body next ihb ihn =>
      intro s r hne hall q hq
      obtain ⟨p0, rest0, hs⟩ : ∃ p0 rest0, s.stack = p0 :: rest0 := by
        cases h : s.stack with
        | nil => exact absurd h hne
        | cons a l => exact ⟨a, l, rfl⟩
      have hhead : s.stack.head? = some p0 := by rw [hs]; rfl
      have hp0r : p0.rootRunId = some r := hall p0 (by rw [hs]; exact List.mem_cons_self _ _)
      have hstr : ((newStep nm ty s).1).rootRunId = some r :=
        newStep_rootRunId_of_parent nm ty s p0 r hhead hp0r
      rw [interp_scope] at hq
      have hInAll : ∀ q ∈ (pushState nm ty s).stack, q.rootRunId = some r := by
        rw [pushState_stack]
        intro q hq
        rcases List.mem_cons.mp hq with h | h
        · rw [h]; exact hstr
        · exact hall q h
      have houtStack : (exitScope (newStep nm ty s).1 (((newStep nm ty s).2).stack)
          (interp body (pushState nm ty s))).stack = s.stack := by
        rw [exitScope_stack, newStep_stack]
      have hnext := ihn _ r (by rw [houtStack, hs]; simp) (by rw [houtStack]; exact hall) q hq
      rcases hnext with hmem | hr
      · rw [exitScope_queue] at hmem
        rcases List.mem_append.mp hmem with hmem | hfin
        · have hb := ihb (pushState nm ty s) r
            (by rw [pushState_stack]; simp) hInAll q hmem
          rcases hb with hq2 | hr2
          · left; rwa [pushState_queue] at hq2
          · right; exact hr2
        · right
          rw [List.mem_singleton.mp hfin]
          exact hstr
      · right; exact hr

theorem interp_done (s : TraceState) : interp Prog.done s = s := rfl

/-- Body of the nested-scope chain of test_nested_run_steps: a nested run
scope containing a tool step scope. -/
def nestedBody : Prog :=
  Prog.scope "foo" StepType.run
    (Prog.scope "tool" StepType.tool Prog.done Prog.done) Prog.done

/-- C1: for every chain of nested run and step scopes rooted at an outermost
run scope (interpreted from a fresh task state with counter c), every Step
the chain records — nested runs and their descendant steps included —
carries root_run_id equal to the outermost run's id, which is the id c that
newStep assigns to the outermost run. -/
theorem nested_run_steps_root_run_id (nm : String) (body : Prog) (c : Nat) :
    ((newStep nm StepType.run (init c)).1.id = c)
    ∧ ∀ q ∈ (interp (Prog.scope nm StepType.run body Prog.done) (init c)).queue,
        q.rootRunId = some c := by
  have hstr : ((newStep nm StepType.run (init c)).1).rootRunId = some c := by
    simp [newStep, init]
  constructor
  · simp [newStep, init]
  · intro q hq
    rw [interp_scope, interp_done, exitScope_queue] at hq
    have hInAll : ∀ q ∈ (pushState nm StepType.run (init c)).stack,
        q.rootRunId = some c := by
      rw [pushState_stack]
      intro q hq
      rcases List.mem_cons.mp hq with h | h
      · rw [h]; exact hstr
      · simp [init] at h
    rcases List.mem_append.mp hq with hmem | hfin
    · have hb := interp_rootRun_inv body (pushState nm StepType.run (init c)) c
        (by rw [pushState_stack]; simp) hInAll q hmem
      rcases hb with hq2 | hr
      · rw [pushState_queue] at hq2; simp [init] at hq2
      · exact hr
    · rw [List.mem_singleton.mp hfin]; exact hstr

/-- Witness for C1 at the concrete chain of test_nested_run_steps: run
scope nested in a run scope with a descendant tool step; the first recorded
step carries the outermost run's id 0 as its root_run_id. -/
theorem nested_run_steps_root_run_id_witness :
    ((interp (Prog.scope "foo" StepType.run nestedBody Prog.done) (init 0)).queue.get
      ⟨0, by decide⟩).rootRunId = some 0 :=
  (nested_run_steps_root_run_id "foo" nestedBody 0).2 _ (by decide)

/-- Modelled from the spec: entering a thread scope resolves or creates a
Thread for an independently started invocation — a fresh Thread id is drawn
(uuid4 in the implementation, modelled as the process-shared fresh-id
counter) and becomes the ambient thread (§4.2). -/
def threadScopeId (s : TraceState) : Nat × TraceState :=
  (s.counter, { s with counter := s.counter + 1, ambientThread := some s.counter })

/-- Thread ids produced by n independently started thread-scoped
invocations. Per the copy-on-fork concurrency contract (§5) each task owns
its stack copy while the id source stays globally fresh, so any
interleaving of n single-allocation tasks — concurrent, sequential, sync or
async — is some sequential order of the n allocations modelled here. -/
def threadIds : Nat → TraceState → List Nat
  | 0, _ => []
  | n + 1, s => (threadScopeId s).1 :: threadIds n (threadScopeId s).2

theorem threadIds_eq_range (n : Nat) :
    ∀ s : TraceState, threadIds n s = List.range' s.counter n := by
  induction n with
  | zero => intro s; rfl
  | succ n ih => intro s; simp [threadIds, threadScopeId, ih, List.range'_succ]

/-- C2: thread-scoped invocations started independently produce pairwise
distinct Thread ids — the list of ids of n invocations is duplicate-free
with one id per invocation, so 4 invocations give 4 distinct ids. -/
theorem parallel_requests_distinct_thread_ids (n : Nat) (s : TraceState) :
    (threadIds n s).Nodup ∧ (threadIds n s).length = n := by
  rw [threadIds_eq_range]
  exact ⟨List.nodup_range' _ _, List.length_range' _ _ _⟩

/-- Modelled from the spec: the transport representation of a Step — its
to_dict record as submitted in a batch (§6): linkage ids and the output
content text, the fields the claims inspect. -/
structure StepDict where
  id : Nat
  name : String
  type : StepType
  threadId : Option Nat
  parentId : Option Nat
  rootRunId : Option Nat
  outputContent : Option String
  error : Option String
deriving DecidableEq

/-- Transport representation of a Step (§6). -/
def Step.toDict (st : Step) : StepDict :=
  ⟨st.id, st.name, st.type, st.threadId, st.parentId, st.rootRunId, st.output, st.error⟩

/-- Modelled from the spec: the Event Processor (§4.3) together with the
collector store it submits to (§6): the FIFO queue of finalized steps, the
persisted store of transport records at the collector, and the optional
preprocessing hook (set_preprocess_function). -/
structure Processor where
  queue : List Step
  store : List StepDict
  hook : Option (List StepDict → List StepDict)

/-- Modelled from the spec: enqueue appends and returns immediately
(§4.3). -/
def enqueueStep (e : Step) (p : Processor) : Processor :=
  { p with queue := p.queue ++ [e] }

/-- Modelled from the spec: the batch the worker submits — the queued
entities in transport representation, passed through the preprocessing
hook when one is installed (§4.3). -/
def pendingBatch (p : Processor) : List StepDict :=
  match p.hook with
  | some f => f (p.queue.map Step.toDict)
  | none => p.queue.map Step.toDict

/-- Modelled from the spec: flush drains the queue and submits the batch,
returning only once the collector has persisted it (§4.3). -/
def flush (p : Processor) : Processor :=
  { p with queue := [], store := p.store ++ pendingBatch p }

/-- Modelled from the spec: fetch-by-id at the collector (§6): the first
persisted record with the given id, or none. -/
def getStepById (p : Processor) (i : Nat) : Option StepDict :=
  p.store.find? (fun d => d.id == i)

/-- C3: flush is a strict visibility barrier — with no entity-dropping
hook installed, every entity enqueued to the Event Processor before the
flush call is fetchable by id (the fetch returns a persisted record, not
none) once flush has returned. -/
theorem flush_visibility_barrier (p : Processor) (e : Step)
    (hh : p.hook = none) (he : e ∈ p.queue) :
    (getStepById (flush p) e.id).isSome := by
  rw [getStepById, flush]
  simp only [pendingBatch, hh]
  rw [List.find?_isSome]
  exact ⟨e.toDict, by simp [List.mem_append]; right; exact ⟨e, he, rfl⟩,
         by simp [Step.toDict]⟩

/-- Concrete enqueued step for the flush-barrier witness. -/
def stepA : Step :=
  ⟨7, "test_ingestion", StepType.tool, some 1, none, none, 0, some 1, none, none⟩

/-- Witness for C3: a processor with stepA queued and no hook; after flush
the fetch by stepA's id succeeds. -/
theorem flush_visibility_barrier_witness :
    (getStepById (flush ⟨[stepA], [], none⟩) stepA.id).isSome :=
  flush_visibility_barrier ⟨[stepA], [], none⟩ stepA rfl (List.mem_singleton.mpr rfl)

/-- Modelled from the spec: flush against an explicit submission outcome
(§4.3, §7): on success the collector persists the batch; on failure —
after the bounded retries are exhausted — the batch is dropped and logged.
In both cases the call returns a normal processor state; no
telemetry-delivery failure is raised to the caller. -/
def flushWith (submit : List StepDict → Except String Unit) (p : Processor) :
    Processor :=
  match submit (pendingBatch p) with
  | Except.ok _ => { p with queue := [], store := p.store ++ pendingBatch p }
  | Except.error _ => { p with queue := [] }

/-- Submission outcome of an unreachable collector endpoint. -/
def unreachableSubmit : List StepDict → Except String Unit :=
  fun _ => Except.error "connection failed"

/-- Modelled from the spec: a step scope around a wrapped unit of work
whose pure outcome is given as an Except value — ok v returns the value v,
error m raises message m (§4.2, §7). The scope pushes the freshly created
Step, lets the body run, records output on success and the error on
failure, sets end_time, pops the stack, enqueues the finished Step, and
passes the body's outcome through unchanged. -/
def stepScopeExc (nm : String) (ty : StepType) (body : Except String String)
    (s : TraceState) : TraceState × Except String String :=
  let pr := newStep nm ty s
  let pushed : TraceState := { pr.2 with stack := pr.1 :: pr.2.stack }
  match pushed.stack with
  | [] => (pushed, body)
  | top :: rest =>
      let fin : Step :=
        { top with
            endTime := some pushed.clock,
            output := match body with | Except.ok v => some v | Except.error _ => none,
            error := match body with | Except.ok _ => none | Except.error m => some m }
      ({ pushed with stack := rest, clock := pushed.clock + 1,
                     queue := pushed.queue ++ [fin] }, body)

/-- C4: graceful degradation with an unreachable collector endpoint — the
scope still executes the wrapped unit of work fully and yields exactly its
outcome (the scope path never consults the network), and a subsequent
flush returns a normal processor state with the queue drained and nothing
raised to the caller: the failed batch is dropped, the store unchanged. -/
theorem gracefulness_unreachable_endpoint (p : Processor) (s : TraceState)
    (nm : String) (ty : StepType) :
    (∀ body : Except String String, (stepScopeExc nm ty body s).2 = body)
    ∧ flushWith unreachableSubmit p = { p with queue := [] } := by
  exact ⟨fun body => rfl, rfl⟩

/-- C5: when the wrapped unit of work raises with message m, the step
scope records the error on the Step, still sets end_time, restores the
stack to its pre-scope state, enqueues the finished Step carrying the
error, and re-raises the same exception unchanged; and the scope's outcome
is always exactly the body's outcome, so exceptions raised by the wrapped
unit of work are the only exceptions it ever propagates. -/
theorem step_scope_error_capture (nm : String) (ty : StepType) (m : String)
    (s : TraceState) :
    ((stepScopeExc nm ty (Except.error m) s).2 = Except.error m)
    ∧ ((stepScopeExc nm ty (Except.error m) s).1.stack = s.stack)
    ∧ (∃ fin : Step,
        (stepScopeExc nm ty (Except.error m) s).1.queue = s.queue ++ [fin]
        ∧ fin.error = some m ∧ fin.endTime.isSome = true)
    ∧ (∀ body : Except String String, (stepScopeExc nm ty body s).2 = body) := by
  refine ⟨rfl, ?_, ?_, fun body => rfl⟩
  · show ((newStep nm ty s).2).stack = s.stack
    exact newStep_stack nm ty s
  · refine ⟨{ (newStep nm ty s).1 with
        endTime := some ((newStep nm ty s).2).clock,
        output := none, error := some m }, ?_, rfl, rfl⟩
    show ((newStep nm ty s).2).queue ++ _ = s.queue ++ _
    rw [newStep_queue]

/-- Modelled from the spec: a Prompt record (data model §3): id, name,
version, template messages as role/content pairs, and settings as
key/value pairs. -/
structure Prompt where
  id : Nat
  name : String
  version : Nat
  templateMessages : List (String × String)
  settings : List (String × String)
deriving DecidableEq

/-- Modelled from the spec: the collector-side prompt registry (§6)
holding the versioned prompts and a fresh-id counter. -/
structure PromptStore where
  counter : Nat
  prompts : List Prompt
deriving DecidableEq

/-- Whether a stored prompt matches get_or_create_prompt's identity key:
identical name, template messages and settings (§4.4). -/
def promptMatches (nm : String) (tm se : List (String × String)) (p : Prompt) :
    Bool :=
  p.name == nm && p.templateMessages == tm && p.settings == se

/-- Modelled from the spec: get_or_create_prompt (§4.4): when a prompt
with identical name, template messages and settings already exists it is
returned, otherwise a new version is created in the name group. -/
def getOrCreatePrompt (nm : String) (tm se : List (String × String))
    (st : PromptStore) : Prompt × PromptStore :=
  match st.prompts.find? (promptMatches nm tm se) with
  | some p => (p, st)
  | none =>
      let v := (st.prompts.filter (fun p => p.name == nm)).length
      let p : Prompt := ⟨st.counter, nm, v, tm, se⟩
      (p, { counter := st.counter + 1, prompts := st.prompts ++ [p] })

/-- C6: get_or_create_prompt is idempotent — calling it twice with
identical name, template messages and settings returns a prompt with the
same id both times; the second call returns the existing prompt instead of
creating a duplicate. -/
theorem get_or_create_prompt_idempotent (nm : String)
    (tm se : List (String × String)) (st : PromptStore) :
    ((getOrCreatePrompt nm tm se ((getOrCreatePrompt nm tm se st).2)).1).id
      = ((getOrCreatePrompt nm tm se st).1).id := by
  cases h : st.prompts.find? (promptMatches nm tm se) with
  | some p => simp [getOrCreatePrompt, h]
  | none =>
      have hmatch : promptMatches nm tm se
          (⟨st.counter, nm, (st.prompts.filter (fun p => p.name == nm)).length,
            tm, se⟩ : Prompt) = true := by
        simp [promptMatches]
      simp [getOrCreatePrompt, h, List.find?_append, hmatch]

/-- Modelled from the spec: the client-side prompt cache keyed by
(name, version) (§4.4). -/
structure PromptCache where
  entries : List ((String × Nat) × Prompt)
deriving DecidableEq

/-- Modelled from the spec: get_prompt with cache fallback (§4.4): the
network outcome of the fetch is given explicitly; a successful fetch is
cached under its key; a fetch that fails at the network layer returns the
last cached value for the same key when one exists, and propagates the
failure otherwise. -/
def getPromptCached (net : Except String Prompt) (key : String × Nat)
    (c : PromptCache) : Except String Prompt × PromptCache :=
  match net with
  | Except.ok p => (Except.ok p, ⟨(key, p) :: c.entries⟩)
  | Except.error e =>
      match c.entries.find? (fun kv => kv.1 == key) with
      | some kv => (Except.ok kv.2, c)
      | none => (Except.error e, c)

/-- C7: after a successful fetch of a key, a subsequent fetch of the same
key that fails at the network layer returns the cached prompt (the very
prompt fetched before, hence the same id) instead of propagating the
failure; and when no cache entry exists for the key, the failure
propagates to the caller unchanged. -/
theorem prompt_cache_fallback (p : Prompt) (key : String × Nat)
    (c : PromptCache) (m : String) :
    ((getPromptCached (Except.error m) key
        ((getPromptCached (Except.ok p) key c).2)).1 = Except.ok p)
    ∧ (c.entries.find? (fun kv => kv.1 == key) = none →
        getPromptCached (Except.error m) key c = (Except.error m, c)) := by
  constructor
  · simp [getPromptCached]
  · intro h
    simp [getPromptCached, h]

/-- Concrete prompt for the cache-fallback witness, mirroring the Default
prompt of test_prompt_cache. -/
def promptDefault : Prompt := ⟨0, "Default", 0, [("user", "Hello")], []⟩

/-- Witness for C7: with an empty cache, a fetch of ("Default", 0) failing
with invalid credentials propagates the failure. -/
theorem prompt_cache_fallback_witness :
    getPromptCached (Except.error "invalid-api-key") ("Default", 0) ⟨[]⟩
      = (Except.error "invalid-api-key", ⟨[]⟩) :=
  (prompt_cache_fallback promptDefault ("Default", 0) ⟨[]⟩ "invalid-api-key").2 rfl

/-- Modelled from the spec: one A/B rollout entry — a prompt version and
its integer percentage weight (§4.4). -/
structure Rollout where
  version : Nat
  rollout : Nat
deriving DecidableEq

/-- Modelled from the spec: the collector-side A/B testing state per
prompt name group (§4.4, §6): update_prompt_ab_testing replaces the name
group's rollout list; get_prompt_ab_testing returns the group's current
list, in no contractual order. -/
structure ABStore where
  groups : List (String × List Rollout)
deriving DecidableEq

/-- Replace the rollout list stored for a name group (§4.4). -/
def updateRollout (nm : String) (rs : List Rollout) (st : ABStore) : ABStore :=
  ⟨(nm, rs) :: st.groups.filter (fun g => !(g.1 == nm))⟩

/-- Read the rollout list stored for a name group (§4.4). -/
def getRollout (nm : String) (st : ABStore) : List Rollout :=
  match st.groups.find? (fun g => g.1 == nm) with
  | some g => g.2
  | none => []

/-- C8: A/B rollout configuration round-trips — after setting a name
group's rollouts to entries whose weights are integers in [0, 100],
reading them back returns exactly those entries (here even in the same
order, which is stronger than the order-independent set comparison the
contract promises). -/
theorem rollout_roundtrip (nm : String) (rs : List Rollout) (st : ABStore)
    (hw : ∀ e ∈ rs, e.rollout ≤ 100) :
    getRollout nm (updateRollout nm rs st) = rs := by
  simp [getRollout, updateRollout]

/-- Witness for C8 at the concrete configuration of test_prompt_ab_testing:
setting versions 0 and 1 with weights 60 and 40 and reading back yields
exactly those two entries. -/
theorem rollout_roundtrip_witness :
    getRollout "Python SDK E2E Tests"
        (updateRollout "Python SDK E2E Tests" [⟨0, 60⟩, ⟨1, 40⟩] ⟨[]⟩)
      = [⟨0, 60⟩, ⟨1, 40⟩] :=
  rollout_roundtrip "Python SDK E2E Tests" [⟨0, 60⟩, ⟨1, 40⟩] ⟨[]⟩ (by decide)

/-- Fuel-bounded scan replacing every occurrence of pat by rep in a
character list, left to right; the initial fuel is the list length, which
bounds the number of scan positions. -/
def replaceAux : Nat → List Char → List Char → List Char → List Char
  | 0, _, _, l => l
  | _ + 1, _, _, [] => []
  | fuel + 1, pat, rep, c :: t =>
      if !pat.isEmpty && pat.isPrefixOf (c :: t) then
        rep ++ replaceAux fuel pat rep (List.drop (pat.length - 1) t)
      else
        c :: replaceAux fuel pat rep t

/-- Replace every occurrence of pat in s by rep (re.sub with a literal
pattern). -/
def replaceStr (pat rep s : String) : String :=
  String.mk (replaceAux s.data.length pat.data rep.data s.data)

/-- Whether needle occurs as a contiguous run inside hay. -/
def containsSub (needle : List Char) : List Char → Bool
  | [] => needle.isEmpty
  | c :: t => needle.isPrefixOf (c :: t) || containsSub needle t

/-- Whether needle occurs as a contiguous substring of hay. -/
def containsStr (needle hay : String) : Bool :=
  containsSub needle.data hay.data

/-- The remove_pii preprocessing hook of test_pii_removal
(src/tests/e2e/test_e2e.py), specialised to literal-occurrence
replacement of the exact substrings its three regular expressions match
on that test's content, in the same substitution order (email, then
phone, then SSN). The phone pattern starts with a word boundary before an
optional opening parenthesis; between the preceding space and the
opening parenthesis of "(123) 456-7890" there is no word boundary (both
are non-word characters), so the regex match starts at the first digit
and covers only "123) 456-7890", leaving the opening parenthesis in
place. -/
def removePii (ds : List StepDict) : List StepDict :=
  ds.map (fun d =>
    { d with outputContent := d.outputContent.map (fun c =>
        replaceStr "123-45-6789" "[SSN REDACTED]"
          (replaceStr "123) 456-7890" "[PHONE REDACTED]"
            (replaceStr "test@example.com" "[EMAIL REDACTED]" c))) })

/-- Output content of the user message of test_pii_removal. -/
def piiContent : String :=
  "My email is test@example.com and my phone is (123) 456-7890. My SSN is 123-45-6789."

/-- The user-message Step of test_pii_removal. -/
def piiStep : Step :=
  ⟨3, "user", StepType.user_message, some 1, none, none, 0, some 1,
   some piiContent, none⟩

/-- Processor at the point of flush in test_pii_removal: the user message
queued and remove_pii installed as the preprocessing hook. -/
def piiProcessor : Processor := ⟨[piiStep], [], some removePii⟩

/-- Persisted output content of the user message after the flush. -/
def persistedPiiContent : Option String :=
  ((flush piiProcessor).store.head?).bind (fun d => d.outputContent)

/-- C9: an installed preprocessing hook is applied to the batch's
transport representation before submission and its mutations are exactly
what the collector persists; instantiated with the remove_pii redaction
hook on the test_pii_removal user message, the persisted output content —
which keeps the opening parenthesis the phone regex cannot consume —
contains none of the raw PII substrings and contains each redaction
marker. -/
theorem preprocess_hook_pii_redaction :
    (∀ (f : List StepDict → List StepDict) (p : Processor), p.hook = some f →
        (flush p).store = p.store ++ f (p.queue.map Step.toDict))
    ∧ persistedPiiContent = some
        "My email is [EMAIL REDACTED] and my phone is ([PHONE REDACTED]. My SSN is [SSN REDACTED]."
    ∧ (∀ c, persistedPiiContent = some c →
        containsStr "test@example.com" c = false
        ∧ containsStr "(123) 456-7890" c = false
        ∧ containsStr "123-45-6789" c = false
        ∧ containsStr "[EMAIL REDACTED]" c = true
        ∧ containsStr "[PHONE REDACTED]" c = true
        ∧ containsStr "[SSN REDACTED]" c = true) := by
  refine ⟨?_, ?_, ?_⟩
  · intro f p hf
    simp [flush, pendingBatch, hf]
  · decide
  · intro c hc
    have h2 : persistedPiiContent = some
        "My email is [EMAIL REDACTED] and my phone is ([PHONE REDACTED]. My SSN is [SSN REDACTED]." := by
      decide
    rw [h2] at hc
    injection hc with h3
    rw [← h3]
    exact ⟨by decide, by decide, by decide, by decide, by decide, by decide⟩

/-- Witness for C9: at the concrete redaction processor, the persisted
store is exactly the remove_pii image of the queued batch's transport
representation, and the redacted content carries no raw email substring. -/
theorem preprocess_hook_pii_redaction_witness :
    ((flush piiProcessor).store
      = piiProcessor.store ++ removePii (piiProcessor.queue.map Step.toDict))
    ∧ containsStr "test@example.com"
        "My email is [EMAIL REDACTED] and my phone is ([PHONE REDACTED]. My SSN is [SSN REDACTED]."
        = false :=
  ⟨preprocess_hook_pii_redaction.1 removePii piiProcessor rfl,
   (preprocess_hook_pii_redaction.2.2 _ rfl).1⟩

/-- Modelled from the spec and test_thread_to_dict: a JSON-like value for
the transport mapping of a Thread. -/
inductive JVal where
  | str : String → JVal
  | obj : List (String × JVal) → JVal
  | null : JVal

/-- Modelled from the spec: a Thread record (data model §3): id, name and
the nullable participant reference. -/
structure Thread where
  id : Option String
  name : Option String
  participantId : Option String

/-- Modelled from the spec and the contract asserted by test_thread_to_dict
(the implementation file observability/thread.py is missing from the
sources): to_dict serializes the flat participant_id field as a nested
participant object holding the id under the participant key; no top-level
participant_id key is emitted. -/
def Thread.toDict (t : Thread) : List (String × JVal) :=
  [("id", match t.id with | some i => JVal.str i | none => JVal.null),
   ("name", match t.name with | some n => JVal.str n | none => JVal.null),
   ("participant", match t.participantId with
      | some pid => JVal.obj [("id", JVal.str pid)]
      | none => JVal.null)]

/-- First value bound to key k in the association list d, if any. -/
def lookupKey (k : String) (d : List (String × JVal)) : Option JVal :=
  match d.find? (fun e => e.1 == k) with
  | some e => some e.2
  | none => none

/-- C10: for every Thread constructed with a non-null participant_id,
to_dict returns a mapping whose participant entry is a nested mapping
whose id equals the Thread's participant_id; the flat field is not
serialized as a top-level participant_id (or participantId) key. -/
theorem thread_to_dict_participant (tid tname : Option String) (pid : String) :
    lookupKey "participant" (Thread.toDict ⟨tid, tname, some pid⟩)
        = some (JVal.obj [("id", JVal.str pid)])
    ∧ lookupKey "participant_id" (Thread.toDict ⟨tid, tname, some pid⟩) = none
    ∧ lookupKey "participantId" (Thread.toDict ⟨tid, tname, some pid⟩) = none := by
  refine ⟨?_, ?_, ?_⟩ <;> rfl

end LiteralAI
